import Mathlib

/-!
Verification of the TODO-to-issue reconciliation pipeline.

The repository contains two near-duplicate pipeline scripts.  We refer to
them as script 000 (the REST/https variant) and script 001 (the Octokit
variant).  Both are embedded below at the level of their pure data
transformations; remote calls are modelled by explicit result values
(success/failure oracles), and JavaScript strings are modelled as `List Char`.
-/

/-- Convert a string literal to the `List Char` representation used throughout. -/
def s2l (s : String) : List Char := s.data

/-- JavaScript's whitespace class: the characters matched by `\s` and removed
by `String.prototype.trim` (WhiteSpace plus LineTerminator code points). -/
def isJsSpace (c : Char) : Bool :=
  c == ' ' || c == '\t' || c == '\n' || c == '\u000B' || c == '\u000C' ||
  c == '\r' || c == '\u00A0' || c == '\u1680' ||
  ('\u2000' ≤ c && c ≤ '\u200A') ||
  c == '\u2028' || c == '\u2029' || c == '\u202F' || c == '\u205F' ||
  c == '\u3000' || c == '\uFEFF'

/-- JavaScript line terminators: the characters NOT matched by `.` in a regex
without the `s` flag. -/
def isLineTerm (c : Char) : Bool :=
  c == '\n' || c == '\r' || c == '\u2028' || c == '\u2029'

/-- Characters matched by `.` in a JavaScript regex (no `s` flag). -/
def isDot (c : Char) : Bool := !isLineTerm c

/-- JavaScript `String.prototype.trim`: drop `isJsSpace` characters from both
ends. -/
def trimChars (l : List Char) : List Char :=
  ((l.dropWhile isJsSpace).reverse.dropWhile isJsSpace).reverse

/-- A scanned TODO occurrence: repo-relative file path, trimmed comment text,
and the (informational) line number kept by script 001. -/
structure Todo where
  filePath : List Char
  text : List Char
  lineNumber : Nat
deriving DecidableEq

/-- A tracked remote record, as visible to this system: its title and body.
The remote lists we manipulate stand for the open issues carrying the `todo`
label (the fetch in both scripts filters on `labels=todo&state=open`, and
every issue created by the scripts carries that label). -/
structure Issue where
  title : List Char
  body : List Char
deriving DecidableEq

/-- Script 001's `generateFingerprint(filePath, todoText)`; script 000 writes
the same template literal inline: `${relativePath}|${todoText}`. -/
def generateFingerprint (filePath todoText : List Char) : List Char :=
  filePath ++ '|' :: todoText

/-- The fingerprint of a scanned TODO. -/
def fpOf (t : Todo) : List Char := generateFingerprint t.filePath t.text

/-- The fixed marker preceding the embedded identity in a record body. -/
def fingerprintMarker : List Char := s2l "fingerprint="

/-- The regex `/fingerprint=(.+)/` applied to a body, before trimming: scan
positions left to right; at the first position where the literal marker
matches and is followed by at least one `.`-matchable character, capture the
(greedy) run of `.`-matchable characters; otherwise keep scanning. -/
def extractFingerprintRaw : List Char → Option (List Char)
  | [] => none
  | c :: rest =>
    if fingerprintMarker.isPrefixOf (c :: rest) then
      let cap := ((c :: rest).drop 12).takeWhile isDot
      if cap.isEmpty then extractFingerprintRaw rest else some cap
    else extractFingerprintRaw rest

/-- `issue.body?.match(/fingerprint=(.+)/)` followed by `match[1].trim()`,
as performed by `fetchExistingTodoIssues` in both scripts. -/
def extractFingerprint (body : List Char) : Option (List Char) :=
  (extractFingerprintRaw body).map trimChars

/-- Script 000's `fetchExistingTodoIssues`: a single REST request with
`per_page=100` and no pagination, so only the first 100 open `todo`-labeled
issues are examined; fingerprints are extracted from their bodies. -/
def fetchFps000 (remote : List Issue) : List (List Char) :=
  (remote.take 100).filterMap (fun i => extractFingerprint i.body)

/-- Script 001's `fetchExistingTodoIssues`: `octokit.paginate.iterator` pages
through the listing until exhausted, so every open `todo`-labeled issue is
examined. -/
def fetchFps001 (remote : List Issue) : List (List Char) :=
  remote.filterMap (fun i => extractFingerprint i.body)

/-- Script 000's issue body template from `createIssue`. -/
def makeBody000 (filePath fingerprint : List Char) : List Char :=
  s2l "**File:** `" ++ filePath ++
  s2l "`\n\n---\n**CI_METADATA**\nfingerprint=" ++ fingerprint ++ s2l "\n"

/-- Script 001's issue body template from `createIssue` (the fingerprint line
sits inside a fenced code block, and the TODO text itself appears in the body
before the metadata section). -/
def makeBody001 (t : Todo) (fingerprint : List Char) : List Char :=
  s2l "**File:** `" ++ t.filePath ++ s2l "`\n\n**TODO:**\n" ++ t.text ++
  s2l "\n\n---\n**CI_METADATA**\n```\nfingerprint=" ++ fingerprint ++ s2l "\n```\n"

/-- The issue created by script 000 for a scanned TODO. -/
def mkIssue000 (t : Todo) : Issue :=
  { title := s2l "TODO: " ++ t.text, body := makeBody000 t.filePath (fpOf t) }

/-- The issue created by script 001 for a scanned TODO. -/
def mkIssue001 (t : Todo) : Issue :=
  { title := s2l "TODO: " ++ t.text, body := makeBody001 t (fpOf t) }

/-- Script 001's reconciliation step:
`todos.filter(todo => !existingFingerprints.has(generateFingerprint(...)))`.
Script 000 performs the same membership test inline in its creation loop. -/
def reconcile001 (todos : List Todo) (existing : List (List Char)) : List Todo :=
  todos.filter (fun t => !(existing.contains (fpOf t)))

/-- The part of a script-000 body that precedes the fingerprint marker. -/
def preMarker000 (filePath : List Char) : List Char :=
  s2l "**File:** `" ++ filePath ++ s2l "`\n\n---\n**CI_METADATA**\n"

/-- The part of a script-001 body that precedes the fingerprint marker. -/
def preMarker001 (t : Todo) : List Char :=
  s2l "**File:** `" ++ t.filePath ++ s2l "`\n\n**TODO:**\n" ++ t.text ++
  s2l "\n\n---\n**CI_METADATA**\n```\n"

/-- No occurrence of the fingerprint marker begins inside `A` when `A` is
followed by `R` (this rules out both occurrences contained in `A` and
occurrences straddling the boundary into `R`). -/
def markerFreeB (A R : List Char) : Bool :=
  (List.range A.length).all (fun i => !(fingerprintMarker.isPrefixOf (A.drop i ++ R)))

/-- Well-formedness of a scanned TODO for the script-001 body round-trip: the
body text before the marker contains no earlier `fingerprint=` occurrence, the
fingerprint consists of `.`-matchable characters only, and the fingerprint is
unchanged by trimming. -/
def wf001 (t : Todo) : Bool :=
  markerFreeB (preMarker001 t) (fingerprintMarker ++ (fpOf t ++ s2l "\n```\n")) &&
  (fpOf t).all isDot && (trimChars (fpOf t) == fpOf t)

/-- Result of one failure-free pipeline run. -/
structure PureRun where
  finalRemote : List Issue
  createdFps : List (List Char)
  createdCount : Nat

/-- Script 001's pipeline with every remote call succeeding: fetch existing
fingerprints (paging through everything), filter the scanned TODOs against
them, create one issue per surviving TODO. -/
def run001pure (remote : List Issue) (todos : List Todo) : PureRun :=
  let existing := fetchFps001 remote
  let newTodos := reconcile001 todos existing
  { finalRemote := remote ++ newTodos.map mkIssue001
    createdFps := newTodos.map fpOf
    createdCount := newTodos.length }

/-- Script 000's pipeline with every remote call succeeding: fetch (first page
only), then the creation loop skips exactly the TODOs whose fingerprint is in
the fetched set. -/
def run000pure (remote : List Issue) (todos : List Todo) : PureRun :=
  let existing := fetchFps000 remote
  let newTodos := todos.filter (fun t => !(existing.contains (fpOf t)))
  { finalRemote := remote ++ newTodos.map mkIssue000
    createdFps := newTodos.map fpOf
    createdCount := newTodos.length }

/-- One lookahead step of `(?=-->|\*\/|$)` in script 000's TODO regex. -/
def lookaheadOk (rest : List Char) : Bool :=
  (s2l "-->").isPrefixOf rest || (s2l "*/").isPrefixOf rest || rest.isEmpty

/-- The lazy group `(.+?)(?=-->|\*\/|$)`: capture the shortest nonempty run of
`.`-matchable characters after which the lookahead succeeds, extending one
character at a time. -/
def lazyCap : List Char → Option (List Char)
  | [] => none
  | c :: rest =>
    if isDot c then
      if lookaheadOk rest then some [c]
      else (lazyCap rest).map (fun cs => c :: cs)
    else none

/-- Backtracking of the greedy `\s*` before the capture group: try the maximal
whitespace run first and shrink it until the rest of the pattern matches. -/
def tryWs (r : List Char) : Nat → Option (List Char)
  | 0 => lazyCap r
  | j + 1 =>
    match lazyCap (r.drop (j + 1)) with
    | some cap => some cap
    | none => tryWs r j

/-- `\s*(.+?)(?=-->|\*\/|$)` applied after the literal `TODO:`. -/
def afterTodo (r : List Char) : Option (List Char) :=
  tryWs r (r.takeWhile isJsSpace).length

/-- Case-insensitive comparison of five characters against `TODO:` (the `/i`
flag of script 000's regex). -/
def tagEq (a b c d e : Char) : Bool :=
  (a == 'T' || a == 't') && (b == 'O' || b == 'o') && (c == 'D' || c == 'd') &&
  (d == 'O' || d == 'o') && (e == ':')

/-- Strip a case-insensitive `TODO:` from the front of the list. -/
def stripTodoTag : List Char → Option (List Char)
  | a :: b :: c :: d :: e :: rest => if tagEq a b c d e then some rest else none
  | _ => none

/-- `\s*TODO:\s*(.+?)(?=-->|\*\/|$)` applied after a comment delimiter.  The
greedy `\s*` before the literal is deterministic: any shorter run leaves a
whitespace character where `T`/`t` is required. -/
def afterDelim (r : List Char) : Option (List Char) :=
  match stripTodoTag (r.dropWhile isJsSpace) with
  | some r2 => afterTodo r2
  | none => none

/-- Try one alternative of the delimiter group `(?:\/\/|#|<!--|\/\*)`. -/
def tryDelim (d l : List Char) : Option (List Char) :=
  if d.isPrefixOf l then afterDelim (l.drop d.length) else none

/-- Script 000's TODO regex anchored at the current position: the delimiter
alternatives are tried in the order they appear in the pattern. -/
def matchTodoAt (l : List Char) : Option (List Char) :=
  match tryDelim (s2l "//") l with
  | some cap => some cap
  | none =>
    match tryDelim (s2l "#") l with
    | some cap => some cap
    | none =>
      match tryDelim (s2l "<!--") l with
      | some cap => some cap
      | none => tryDelim (s2l "/*") l

/-- Script 000's `line.match(todoRegex)`: scan start positions left to right.
`line.match` without the `g` flag yields at most one match, hence at most one
TODO per line. -/
def matchTodo000 : List Char → Option (List Char)
  | [] => none
  | c :: rest =>
    match matchTodoAt (c :: rest) with
    | some cap => some cap
    | none => matchTodo000 rest

/-- Script 000's `extractTodos` per line: the captured group, trimmed
(`match[1].trim()`). -/
def extractTodoText000 (line : List Char) : Option (List Char) :=
  (matchTodo000 line).map trimChars

/-- The greedy group `(.+)` of script 001's regex: the maximal nonempty run of
`.`-matchable characters. -/
def greedyCap (r : List Char) : Option (List Char) :=
  let cap := r.takeWhile isDot
  if cap.isEmpty then none else some cap

/-- Backtracking of `\s*` before `(.+)` in script 001's regex. -/
def tryWs001 (r : List Char) : Nat → Option (List Char)
  | 0 => greedyCap r
  | j + 1 =>
    match greedyCap (r.drop (j + 1)) with
    | some cap => some cap
    | none => tryWs001 r j

/-- `\s*(.+)` applied after the literal `TODO:` in script 001's regex. -/
def after001 (r : List Char) : Option (List Char) :=
  tryWs001 r (r.takeWhile isJsSpace).length

/-- Script 001's `line.match(/TODO:\s*(.+)/)` (case-sensitive, no comment
delimiter required): scan start positions left to right for the literal
`TODO:`. -/
def matchTodo001 : List Char → Option (List Char)
  | [] => none
  | c :: rest =>
    if (s2l "TODO:").isPrefixOf (c :: rest) then
      match after001 ((c :: rest).drop 5) with
      | some cap => some cap
      | none => matchTodo001 rest
    else matchTodo001 rest

/-- Script 001's `scanForTodos` per line: the captured group, trimmed. -/
def extractTodoText001 (line : List Char) : Option (List Char) :=
  (matchTodo001 line).map trimChars

/-- A five-character case-insensitive `TODO:` tag, as a predicate on lists. -/
def isTodoTagL : List Char → Bool
  | [a, b, c, d, e] => tagEq a b c d e
  | _ => false

/-- The spec's description of the scanner pattern, stated declaratively: the
line contains a TODO marker introduced by a comment delimiter (line comment,
hash comment, block-comment open, or markup-comment open), followed by
`TODO:` matched case-insensitively, capturing nonempty text that runs up to a
closing block/markup delimiter or the end of the line. -/
def specTodoLine (l : List Char) : Prop :=
  ∃ pre d w1 tag w2 cap rest,
    l = pre ++ d ++ w1 ++ tag ++ w2 ++ cap ++ rest ∧
    (d = s2l "//" ∨ d = s2l "#" ∨ d = s2l "<!--" ∨ d = s2l "/*") ∧
    w1.all isJsSpace = true ∧
    isTodoTagL tag = true ∧
    w2.all isJsSpace = true ∧
    cap ≠ [] ∧
    cap.all isDot = true ∧
    (rest = [] ∨ (s2l "-->").isPrefixOf rest = true ∨ (s2l "*/").isPrefixOf rest = true)

/-- Outcome of one iteration of a creation loop. -/
inductive ItemOutcome where
  | skippedDup
  | createdOk
  | failedItem
deriving DecidableEq

/-- Observable result of a creation loop: per-item outcomes in order, the
`createdCount` tally, the issues actually created on the remote (never
retracted), and the number of create API calls issued. -/
structure LoopRes where
  outcomes : List ItemOutcome
  createdCount : Nat
  newIssues : List Issue
  createCalls : Nat

/-- Remote-call outcomes for a script-000 run, indexed by create-attempt
number: whether the create call succeeds, the result of the user-scoped and
organization-scoped project queries (`.error` = request rejected, `.ok none` =
no such project), and whether each `addItemToProject` mutation succeeds. -/
structure Env000 where
  createOk : Nat → Bool
  userProj : Nat → Except Unit (Option (List Char))
  orgProj : Nat → Except Unit (Option (List Char))
  attachUserOk : Nat → Bool
  attachOrgOk : Nat → Bool

/-- The organization phase of script 000's `addIssueToProject`: if the
organization query yields a project and the attach succeeds, return; in every
other case control reaches the final `throw new Error(...)`. -/
def addToProjectOrg000 (env : Env000) (i : Nat) : Except Unit Unit :=
  match env.orgProj i with
  | .ok (some _) => if env.attachOrgOk i then .ok () else .error ()
  | _ => .error ()

/-- Script 000's `addIssueToProject`: try the user-scoped query first; a
request failure or a missing project — or a failed attach, whose exception is
caught by the same `catch` — falls through to the organization phase. -/
def addToProject000 (env : Env000) (i : Nat) : Except Unit Unit :=
  match env.userProj i with
  | .ok (some _) => if env.attachUserOk i then .ok () else addToProjectOrg000 env i
  | _ => addToProjectOrg000 env i

/-- Script 000's creation loop (`main`, lines 338-358): duplicates are
skipped; otherwise `createIssue` is attempted, then `addIssueToProject`, and
`createdCount++` runs only if neither threw; a thrown error is caught by the
per-item `catch`, so the loop always continues.  A created issue stays on the
remote even when the subsequent project step throws. -/
def loop000 (env : Env000) (existing : List (List Char)) :
    List Todo → Nat → LoopRes
  | [], _ => ⟨[], 0, [], 0⟩
  | t :: ts, i =>
    if existing.contains (fpOf t) then
      let r := loop000 env existing ts i
      ⟨.skippedDup :: r.outcomes, r.createdCount, r.newIssues, r.createCalls⟩
    else if env.createOk i then
      match addToProject000 env i with
      | .ok _ =>
        let r := loop000 env existing ts (i + 1)
        ⟨.createdOk :: r.outcomes, r.createdCount + 1, mkIssue000 t :: r.newIssues,
          r.createCalls + 1⟩
      | .error _ =>
        let r := loop000 env existing ts (i + 1)
        ⟨.failedItem :: r.outcomes, r.createdCount, mkIssue000 t :: r.newIssues,
          r.createCalls + 1⟩
    else
      let r := loop000 env existing ts (i + 1)
      ⟨.failedItem :: r.outcomes, r.createdCount, r.newIssues, r.createCalls + 1⟩

/-- Observable result of a script-000 run: process exit code, loop
observables, and the final summary (total, created, total - created) printed
by `main`. -/
structure Run000Out where
  exitCode : Nat
  res : LoopRes
  summary : Option (Nat × Nat × Nat)

/-- Script 000's `main`, given the outcome of the initial fetch of existing
issues: a fetch failure propagates to `main().catch`, which exits with code 1
before any create call; otherwise the creation loop runs over all scanned
TODOs and the summary is always printed. -/
def run000 (env : Env000) (fetched : Except Unit (List Issue))
    (todos : List Todo) : Run000Out :=
  match fetched with
  | .error _ => ⟨1, ⟨[], 0, [], 0⟩, none⟩
  | .ok remote =>
    let existing := fetchFps000 remote
    let r := loop000 env existing todos 0
    ⟨0, r, some (todos.length, r.createdCount, todos.length - r.createdCount)⟩

/-- Remote-call outcomes for a script-001 run: per-attempt create results, the
single viewer-scoped project resolution (performed once, before the loop), and
per-attempt attach results (whose failures `addIssueToProject` swallows). -/
structure Env001 where
  createOk : Nat → Bool
  projectRes : Except Unit (List Char)
  attachOk : Nat → Bool

/-- Script 001's creation loop (`main`, lines 325-340): every filtered TODO
gets a create attempt; on success the issue exists remotely and
`createdCount++` runs regardless of the project-attach outcome, because
`addIssueToProject` catches its own errors; a create failure is caught by the
per-item `catch` and the loop continues. -/
def loop001 (env : Env001) : List Todo → Nat → LoopRes
  | [], _ => ⟨[], 0, [], 0⟩
  | t :: ts, j =>
    if env.createOk j then
      let r := loop001 env ts (j + 1)
      ⟨.createdOk :: r.outcomes, r.createdCount + 1, mkIssue001 t :: r.newIssues,
        r.createCalls + 1⟩
    else
      let r := loop001 env ts (j + 1)
      ⟨.failedItem :: r.outcomes, r.createdCount, r.newIssues, r.createCalls + 1⟩

/-- Observable result of a script-001 run: exit code, loop observables, and
the final `Complete! Created N` count (`none` when an early return or a fatal
error skipped it). -/
structure Run001Out where
  exitCode : Nat
  res : LoopRes
  summary : Option Nat

/-- Script 001's `main`, given the outcome of the fetch of existing issues
(which happens after the scan): no TODOs means an early return before the
fetch; a fetch failure is rethrown to `main().catch`, which exits with code 1
before any create call; no new TODOs means an early return before creation;
otherwise the project is resolved once (failure only warns) and the loop
runs. -/
def run001 (env : Env001) (fetched : Except Unit (List Issue))
    (todos : List Todo) : Run001Out :=
  if todos.isEmpty then ⟨0, ⟨[], 0, [], 0⟩, none⟩
  else
    match fetched with
    | .error _ => ⟨1, ⟨[], 0, [], 0⟩, none⟩
    | .ok remote =>
      let existing := fetchFps001 remote
      let newTodos := reconcile001 todos existing
      if newTodos.isEmpty then ⟨0, ⟨[], 0, [], 0⟩, none⟩
      else
        let r := loop001 env newTodos 0
        ⟨0, r, some r.createdCount⟩

/-- A scanned TODO whose path begins with whitespace (a legal file name):
its fingerprint is altered by the reader's `.trim()`. -/
def spaceTodo : Todo := ⟨s2l " a", s2l "b", 1⟩

/-- An ordinary scanned TODO. -/
def dupTodo : Todo := ⟨s2l "a", s2l "b", 1⟩

/-- The TODO of the spec's example scenario. -/
def okTodo : Todo := ⟨s2l "a.txt", s2l "fix auth", 3⟩

/-- A remote state with 101 open `todo`-labeled issues, each carrying a
distinct parseable fingerprint (`k+1` copies of `a` for the `k`-th issue). -/
def manyIssues : List Issue :=
  (List.range 101).map (fun k => ⟨[], s2l "fingerprint=" ++ List.replicate (k + 1) 'a'⟩)

/-- Script-000 remote outcomes where every call succeeds (user project found). -/
def envAllOk000 : Env000 :=
  ⟨fun _ => true, fun _ => .ok (some (s2l "P")), fun _ => .ok none,
   fun _ => true, fun _ => true⟩

/-- Script-000 remote outcomes where creation succeeds but the project cannot
be resolved under either ownership kind. -/
def envLinkFail000 : Env000 :=
  ⟨fun _ => true, fun _ => .error (), fun _ => .error (),
   fun _ => true, fun _ => true⟩

/-- Script-001 remote outcomes where every call succeeds. -/
def envOk001 : Env001 := ⟨fun _ => true, .ok (s2l "P"), fun _ => true⟩

/-- Script-001 remote outcomes where creation succeeds but project resolution
and every attach fail. -/
def envLinkFail001 : Env001 := ⟨fun _ => true, .error (), fun _ => false⟩

/-- Script-001 remote outcomes where exactly the second create call fails. -/
def envFailSecond001 : Env001 :=
  ⟨fun j => decide (j ≠ 1), .ok (s2l "P"), fun _ => true⟩

/-- Membership form of `List.contains` (JavaScript's `Set.has` on exact
strings). -/
theorem contains_iff {l : List (List Char)} {a : List Char} :
    l.contains a = true ↔ a ∈ l := by
  show List.elem a l = true ↔ a ∈ l
  exact List.elem_iff

/-- C2: the reconciler's output contains an annotation iff it was scanned and
its identity is absent from the existing set, and the output is a sublist of
the scan sequence (scan order preserved); membership in the existing set is
the only exclusion criterion. -/
theorem reconcile_mem_iff_sublist (S : List Todo) (E : List (List Char)) (a : Todo) :
    (a ∈ reconcile001 S E ↔ a ∈ S ∧ fpOf a ∉ E) ∧ (reconcile001 S E).Sublist S := by
  constructor
  · simp only [reconcile001, List.mem_filter, Bool.not_eq_true']
    constructor
    · rintro ⟨hS, hc⟩
      exact ⟨hS, fun hmem => by rw [contains_iff.mpr hmem] at hc; cases hc⟩
    · rintro ⟨hS, hmem⟩
      refine ⟨hS, ?_⟩
      cases h : E.contains (fpOf a) with
      | false => rfl
      | true => exact absurd (contains_iff.mp h) hmem
  · exact List.filter_sublist S

/-- C3: the identity is a pure function (trivially reflexive), and for a fixed
text it is injective in the path, and for a fixed path injective in the text. -/
theorem fingerprint_stable_injective (p q t₁ t₂ : List Char) :
    generateFingerprint p t₁ = generateFingerprint p t₁ ∧
    (p ≠ q → generateFingerprint p t₁ ≠ generateFingerprint q t₁) ∧
    (t₁ ≠ t₂ → generateFingerprint p t₁ ≠ generateFingerprint p t₂) := by
  refine ⟨rfl, fun hpq heq => hpq ?_, fun ht heq => ht ?_⟩
  · exact List.append_cancel_right (heq : p ++ '|' :: t₁ = q ++ '|' :: t₁)
  · have := List.append_cancel_left (heq : p ++ '|' :: t₁ = p ++ '|' :: t₂)
    exact (List.cons.injEq _ _ _ _ ▸ this).2

/-- Witness for C3 at concrete inputs. -/
theorem fingerprint_stable_injective_witness :
    generateFingerprint (s2l "a.txt") (s2l "x") ≠ generateFingerprint (s2l "b.txt") (s2l "x") :=
  (fingerprint_stable_injective (s2l "a.txt") (s2l "b.txt") (s2l "x") (s2l "y")).2.1
    (by decide)

/-- Unfolded form of `markerFreeB`. -/
theorem markerFree_iff {A R : List Char} :
    markerFreeB A R = true ↔
      ∀ i < A.length, fingerprintMarker.isPrefixOf (A.drop i ++ R) = false := by
  simp [markerFreeB, List.all_eq_true, List.mem_range, Bool.not_eq_true']

/-- Scanning for the fingerprint marker skips over a marker-free prefix. -/
theorem extractRaw_append {A R : List Char} (h : markerFreeB A R = true) :
    extractFingerprintRaw (A ++ R) = extractFingerprintRaw R := by
  induction A with
  | nil => simp
  | cons c A ih =>
    rw [markerFree_iff] at h
    have h0 : fingerprintMarker.isPrefixOf (c :: (A ++ R)) = false := by
      simpa using h 0 (by simp)
    have h' : markerFreeB A R = true := by
      rw [markerFree_iff]
      intro i hi
      simpa using h (i + 1) (by simpa using Nat.succ_lt_succ hi)
    rw [List.cons_append]
    rw [extractFingerprintRaw]
    simp [h0, ih h']

/-- `takeWhile` runs through a block that satisfies the predicate. -/
theorem takeWhile_append_of_all {p : Char → Bool} {l₁ l₂ : List Char}
    (h : l₁.all p = true) :
    (l₁ ++ l₂).takeWhile p = l₁ ++ l₂.takeWhile p := by
  induction l₁ with
  | nil => simp
  | cons c l ih =>
    simp only [List.all_cons, Bool.and_eq_true] at h
    simp [List.takeWhile_cons, h.1, ih h.2]

/-- The marker scan succeeds right at the marker and captures the whole
fingerprint when the fingerprint is `.`-matchable and what follows starts
with a line terminator. -/
theorem extractRaw_at_marker {fp B : List Char} (h1 : fp.all isDot = true)
    (h2 : fp ≠ []) (h3 : B.takeWhile isDot = []) :
    extractFingerprintRaw (fingerprintMarker ++ (fp ++ B)) = some fp := by
  have hpre : fingerprintMarker.isPrefixOf (fingerprintMarker ++ (fp ++ B)) = true :=
    List.isPrefixOf_iff_prefix.mpr (List.prefix_append _ _)
  have hdrop : (fingerprintMarker ++ (fp ++ B)).drop 12 = fp ++ B := by
    have hl : fingerprintMarker.length = 12 := by decide
    rw [← hl]; exact List.drop_left _ _
  have hcap : (fp ++ B).takeWhile isDot = fp := by
    rw [takeWhile_append_of_all h1, h3, List.append_nil]
  have hcons : fingerprintMarker ++ (fp ++ B) = 'f' :: (s2l "ingerprint=" ++ (fp ++ B)) := rfl
  rw [hcons] at hpre hdrop ⊢
  rw [extractFingerprintRaw]
  simp only [hpre, if_true]
  rw [hdrop, hcap]
  simp [List.isEmpty_iff, h2]

/-- Round trip of a body built as marker-free prefix, marker, fingerprint,
trailer: extraction recovers the fingerprint exactly when the fingerprint is
unchanged by trimming. -/
theorem extractFingerprint_body {A fp B : List Char}
    (hfree : markerFreeB A (fingerprintMarker ++ (fp ++ B)) = true)
    (h1 : fp.all isDot = true) (h2 : fp ≠ []) (h3 : B.takeWhile isDot = [])
    (h4 : trimChars fp = fp) :
    extractFingerprint (A ++ (fingerprintMarker ++ (fp ++ B))) = some fp := by
  unfold extractFingerprint
  rw [extractRaw_append hfree, extractRaw_at_marker h1 h2 h3]
  simp [h4]

/-- A script-000 body splits as pre-marker text, marker, fingerprint, newline. -/
theorem makeBody000_decomp (path fp : List Char) :
    makeBody000 path fp = preMarker000 path ++ (fingerprintMarker ++ (fp ++ s2l "\n")) := by
  have hsplit : s2l "`\n\n---\n**CI_METADATA**\nfingerprint=" =
      s2l "`\n\n---\n**CI_METADATA**\n" ++ fingerprintMarker := by decide
  simp [makeBody000, preMarker000, hsplit, List.append_assoc]

/-- A script-001 body splits as pre-marker text, marker, fingerprint, fence. -/
theorem makeBody001_decomp (t : Todo) (fp : List Char) :
    makeBody001 t fp = preMarker001 t ++ (fingerprintMarker ++ (fp ++ s2l "\n```\n")) := by
  have hsplit : s2l "\n\n---\n**CI_METADATA**\n```\nfingerprint=" =
      s2l "\n\n---\n**CI_METADATA**\n```\n" ++ fingerprintMarker := by decide
  simp [makeBody001, preMarker001, hsplit, List.append_assoc]

/-- A fingerprint is never empty (it contains the `|` delimiter). -/
theorem fpOf_ne_nil (t : Todo) : fpOf t ≠ [] := by
  simp [fpOf, generateFingerprint]

/-- Extraction from a script-001 issue recovers the fingerprint of a
well-formed TODO. -/
theorem extract_mkIssue001 {t : Todo} (h : wf001 t = true) :
    extractFingerprint (mkIssue001 t).body = some (fpOf t) := by
  simp only [wf001, Bool.and_eq_true, beq_iff_eq] at h
  obtain ⟨⟨hfree, hdot⟩, htrim⟩ := h
  have hb : (mkIssue001 t).body =
      preMarker001 t ++ (fingerprintMarker ++ (fpOf t ++ s2l "\n```\n")) := by
    simp [mkIssue001, makeBody001_decomp]
  rw [hb]
  exact extractFingerprint_body hfree hdot (fpOf_ne_nil t) (by decide) htrim

/-- C4 (amended): the record body contains the marker line, and extraction
recovers the identity verbatim, provided no `fingerprint=` occurrence begins
in the body text before the marker, the identity consists of `.`-matchable
characters, and the identity is unchanged by trimming. -/
theorem body_fingerprint_roundtrip (path text : List Char)
    (hfree : markerFreeB (preMarker000 path)
      (fingerprintMarker ++ (generateFingerprint path text ++ s2l "\n")) = true)
    (hdot : (generateFingerprint path text).all isDot = true)
    (htrim : trimChars (generateFingerprint path text) = generateFingerprint path text) :
    makeBody000 path (generateFingerprint path text) =
      preMarker000 path ++
        (fingerprintMarker ++ (generateFingerprint path text ++ s2l "\n")) ∧
    extractFingerprint (makeBody000 path (generateFingerprint path text)) =
      some (generateFingerprint path text) := by
  refine ⟨makeBody000_decomp _ _, ?_⟩
  rw [makeBody000_decomp]
  exact extractFingerprint_body hfree hdot (by simp [generateFingerprint]) (by decide) htrim

/-- Witness for C4 on the spec's example annotation. -/
theorem body_fingerprint_roundtrip_witness :
    extractFingerprint
        (makeBody000 (s2l "a.txt") (generateFingerprint (s2l "a.txt") (s2l "fix auth"))) =
      some (generateFingerprint (s2l "a.txt") (s2l "fix auth")) :=
  (body_fingerprint_roundtrip (s2l "a.txt") (s2l "fix auth")
    (by decide) (by decide) (by decide)).2

/-- Counterexample for C4 as stated: for a path beginning with whitespace, the
reader's `.trim()` returns a string different from the embedded identity. -/
theorem body_fingerprint_roundtrip_cx :
    extractFingerprint
        (makeBody000 (s2l " a") (generateFingerprint (s2l " a") (s2l "b"))) ≠
      some (generateFingerprint (s2l " a") (s2l "b")) := by decide

/-- Fetching fingerprints distributes over concatenated remote states. -/
theorem fetchFps001_append (A B : List Issue) :
    fetchFps001 (A ++ B) = fetchFps001 A ++ fetchFps001 B :=
  List.filterMap_append A B _

/-- C1 (amended): for the paginating pipeline (script 001), when every scanned
TODO is well formed (its identity survives the body round trip), every
identity created by run 1 is in the identity set reconstructed by run 2 from
the post-run remote state, and run 2 creates zero new records. -/
theorem pipeline_idempotent (remote : List Issue) (todos : List Todo)
    (hwf : ∀ t ∈ todos, wf001 t = true) :
    (∀ f ∈ (run001pure remote todos).createdFps,
        f ∈ fetchFps001 (run001pure remote todos).finalRemote) ∧
    (run001pure (run001pure remote todos).finalRemote todos).createdFps = [] ∧
    (run001pure (run001pure remote todos).finalRemote todos).createdCount = 0 := by
  simp only [run001pure]
  set E1 := fetchFps001 remote with hE1
  set new := reconcile001 todos E1 with hnew
  have hsub : ∀ t ∈ new, t ∈ todos := fun t ht => (List.mem_filter.mp ht).1
  have hmem2 : ∀ t ∈ new, fpOf t ∈ fetchFps001 (remote ++ new.map mkIssue001) := by
    intro t ht
    have hx : extractFingerprint (mkIssue001 t).body = some (fpOf t) :=
      extract_mkIssue001 (hwf t (hsub t ht))
    rw [fetchFps001_append]
    refine List.mem_append.mpr (Or.inr ?_)
    exact List.mem_filterMap.mpr ⟨mkIssue001 t, List.mem_map_of_mem _ ht, hx⟩
  have hnil : reconcile001 todos (fetchFps001 (remote ++ new.map mkIssue001)) = [] := by
    apply List.filter_eq_nil_iff.mpr
    intro t ht h
    have hin : fpOf t ∈ fetchFps001 (remote ++ new.map mkIssue001) := by
      by_cases hc : E1.contains (fpOf t) = true
      · rw [fetchFps001_append]
        exact List.mem_append.mpr (Or.inl (contains_iff.mp hc))
      · have hc' : E1.contains (fpOf t) = false := by
          cases hb : E1.contains (fpOf t)
          · rfl
          · exact absurd hb hc
        exact hmem2 t (List.mem_filter.mpr ⟨ht, by
          show (!(E1.contains (fpOf t))) = true
          rw [hc']; rfl⟩)
    rw [contains_iff.mpr hin] at h
    simp at h
  refine ⟨?_, ?_, ?_⟩
  · intro f hf
    obtain ⟨t, ht, rfl⟩ := List.mem_map.mp hf
    exact hmem2 t ht
  · rw [hnil]
    rfl
  · rw [hnil]
    rfl

/-- Witness for C1 on a well-formed example. -/
theorem pipeline_idempotent_witness :
    (run001pure (run001pure [] [okTodo]).finalRemote [okTodo]).createdFps = [] ∧
    (run001pure (run001pure [] [okTodo]).finalRemote [okTodo]).createdCount = 0 :=
  (pipeline_idempotent [] [okTodo] (by decide)).2

/-- Counterexample for C1 as stated: with a path beginning with whitespace,
run 1 creates a record whose identity is NOT in the identity set run 2
reconstructs (the reader trims the stored fingerprint), so run 2 creates a
new record again (script 000's pipeline; script 001 trims identically). -/
theorem pipeline_not_idempotent_cx :
    (run000pure [] [spaceTodo]).createdFps = [fpOf spaceTodo] ∧
    fpOf spaceTodo ∉ fetchFps000 (run000pure [] [spaceTodo]).finalRemote ∧
    (run000pure (run000pure [] [spaceTodo]).finalRemote [spaceTodo]).createdCount = 1 := by
  decide

/-- C10 (amended): repeated occurrences of the same (path, text) share one
identity, but a single run creates one record per occurrence: the number of
records created bearing identity `fpv` is zero when `fpv` is already tracked
and otherwise equals the number of scanned occurrences with that identity. -/
theorem duplicate_fp_record_count (remote : List Issue) (todos : List Todo)
    (fpv : List Char) (hwf : ∀ t ∈ todos, wf001 t = true) :
    (((run001pure remote todos).finalRemote.drop remote.length).filter
        (fun i => extractFingerprint i.body == some fpv)).length =
      if fpv ∈ fetchFps001 remote then 0
      else (todos.filter (fun t => fpOf t == fpv)).length := by
  simp only [run001pure]
  rw [List.drop_left]
  set E1 := fetchFps001 remote with hE1
  rw [← List.countP_eq_length_filter, List.countP_map]
  have hcg : List.countP ((fun i => extractFingerprint i.body == some fpv) ∘ mkIssue001)
      (reconcile001 todos E1) =
      List.countP (fun t => fpOf t == fpv) (reconcile001 todos E1) := by
    apply List.countP_congr
    intro t ht
    have hx : extractFingerprint (mkIssue001 t).body = some (fpOf t) :=
      extract_mkIssue001 (hwf t (List.mem_filter.mp ht).1)
    simp [Function.comp, hx]
  rw [hcg]
  simp only [reconcile001]
  rw [List.countP_filter]
  by_cases hmem : fpv ∈ E1
  · rw [if_pos hmem]
    apply List.countP_eq_zero.mpr
    intro t ht h
    simp only [Bool.and_eq_true, beq_iff_eq, Bool.not_eq_true'] at h
    have hmem' : fpOf t ∈ E1 := by rw [h.1]; exact hmem
    rw [contains_iff.mpr hmem'] at h
    exact Bool.noConfusion h.2
  · rw [if_neg hmem, ← List.countP_eq_length_filter]
    apply List.countP_congr
    intro t ht
    constructor
    · intro h
      simp only [Bool.and_eq_true] at h
      exact h.1
    · intro h
      simp only [Bool.and_eq_true]
      refine ⟨h, ?_⟩
      have : fpOf t = fpv := by simpa using h
      cases hb : E1.contains (fpOf t)
      · rfl
      · exact absurd (this ▸ contains_iff.mp hb) hmem

/-- Witness for C10 on a remote state that does not yet track the identity. -/
theorem duplicate_fp_record_count_witness :
    (((run001pure [] [dupTodo]).finalRemote.drop (List.length ([] : List Issue))).filter
        (fun i => extractFingerprint i.body == some (s2l "a|b"))).length =
      if (s2l "a|b") ∈ fetchFps001 [] then 0
      else ([dupTodo].filter (fun t => fpOf t == s2l "a|b")).length :=
  duplicate_fp_record_count [] [dupTodo] (s2l "a|b") (by decide)

/-- Counterexample for C10 as stated: the same (path, text) scanned twice in
one run yields two tracking records bearing the same identity, because the
within-run loop never updates the existing-identity set. -/
theorem duplicate_fp_two_records_cx :
    ((run001pure [] [dupTodo, ⟨s2l "a", s2l "b", 2⟩]).finalRemote.filter
        (fun i => extractFingerprint i.body == some (fpOf dupTodo))).length = 2 := by
  decide

/-- C5: with 101 open tracked records, every one carrying a parseable marker,
the paginating reader (script 001) returns the 101st identity but script 000's
reader — a single `per_page=100` request with no pagination, despite its own
doc comment "Fetch all open issues" — does not. -/
theorem fetch000_misses_101st :
    (∀ i ∈ manyIssues, (extractFingerprint i.body).isSome = true) ∧
    List.replicate 101 'a' ∈ fetchFps001 manyIssues ∧
    List.replicate 101 'a' ∉ fetchFps000 manyIssues := by decide

/-- C9: when the fetch of existing tracked records fails, both scripts abort
with exit code 1, having issued no record-creation call and created nothing
(script 001 contacts the tracker only when the scan found TODOs). -/
theorem no_create_before_fetch_ok (env0 : Env000) (env1 : Env001)
    (todos : List Todo) (hne : todos ≠ []) :
    (run000 env0 (.error ()) todos).res.createCalls = 0 ∧
    (run000 env0 (.error ()) todos).res.newIssues = [] ∧
    (run000 env0 (.error ()) todos).exitCode = 1 ∧
    (run001 env1 (.error ()) todos).res.createCalls = 0 ∧
    (run001 env1 (.error ()) todos).res.newIssues = [] ∧
    (run001 env1 (.error ()) todos).exitCode = 1 := by
  have h2 : run001 env1 (.error ()) todos = ⟨1, ⟨[], 0, [], 0⟩, none⟩ := by
    cases todos with
    | nil => exact absurd rfl hne
    | cons t ts => rfl
  exact ⟨rfl, rfl, rfl, by rw [h2], by rw [h2], by rw [h2]⟩

/-- Witness for C9 on a nonempty scan. -/
theorem no_create_before_fetch_ok_witness :
    (run000 envAllOk000 (.error ()) [okTodo]).res.createCalls = 0 ∧
    (run000 envAllOk000 (.error ()) [okTodo]).res.newIssues = [] ∧
    (run000 envAllOk000 (.error ()) [okTodo]).exitCode = 1 ∧
    (run001 envOk001 (.error ()) [okTodo]).res.createCalls = 0 ∧
    (run001 envOk001 (.error ()) [okTodo]).res.newIssues = [] ∧
    (run001 envOk001 (.error ()) [okTodo]).exitCode = 1 :=
  no_create_before_fetch_ok envAllOk000 envOk001 [okTodo] (by decide)

/-- Script 001's loop visits every filtered TODO: one outcome and one create
call per item, regardless of failures. -/
theorem loop001_len (env : Env001) :
    ∀ (ts : List Todo) (j : Nat),
      (loop001 env ts j).outcomes.length = ts.length ∧
      (loop001 env ts j).createCalls = ts.length := by
  intro ts
  induction ts with
  | nil => intro j; exact ⟨rfl, rfl⟩
  | cons t ts ih =>
    intro j
    cases hc : env.createOk j <;>
      simp [loop001, hc, (ih (j + 1)).1, (ih (j + 1)).2]

/-- Each item's outcome in script 001's loop is determined by its own create
result alone. -/
theorem loop001_getD (env : Env001) :
    ∀ (ts : List Todo) (j0 j : Nat), j < ts.length →
      (loop001 env ts j0).outcomes.getD j .failedItem =
        (if env.createOk (j0 + j) then ItemOutcome.createdOk else .failedItem) := by
  intro ts
  induction ts with
  | nil => intro j0 j h; cases h
  | cons t ts ih =>
    intro j0 j hj
    cases j with
    | zero =>
      cases hc : env.createOk j0 <;> simp [loop001, hc]
    | succ j =>
      have hlt : j < ts.length := Nat.lt_of_succ_lt_succ hj
      have harith : j0 + (j + 1) = (j0 + 1) + j := by omega
      have ih' := ih (j0 + 1) j hlt
      cases hc : env.createOk j0 <;>
        simpa [loop001, hc, List.getD_cons_succ, harith] using ih'

/-- Script 001's `createdCount` equals the number of successful create calls. -/
theorem loop001_count (env : Env001) :
    ∀ (ts : List Todo) (j0 : Nat),
      (loop001 env ts j0).createdCount =
        (List.range ts.length).countP (fun j => env.createOk (j0 + j)) := by
  intro ts
  induction ts with
  | nil => intro j0; rfl
  | cons t ts ih =>
    intro j0
    have hr : (List.range (ts.length + 1)).countP (fun j => env.createOk (j0 + j)) =
        (List.range ts.length).countP (fun j => env.createOk ((j0 + 1) + j)) +
          if env.createOk j0 then 1 else 0 := by
      rw [List.range_succ_eq_map, List.countP_cons, List.countP_map]
      congr 1
      apply List.countP_congr
      intro x _
      show env.createOk (j0 + Nat.succ x) = true ↔ env.createOk ((j0 + 1) + x) = true
      have hx : j0 + Nat.succ x = (j0 + 1) + x := by omega
      rw [hx]
    cases hc : env.createOk j0 <;>
      simp [loop001, hc, ih (j0 + 1), hr, List.length_cons]

/-- Script 000's loop also visits every scanned TODO. -/
theorem loop000_len (env : Env000) (existing : List (List Char)) :
    ∀ (ts : List Todo) (i : Nat),
      (loop000 env existing ts i).outcomes.length = ts.length := by
  intro ts
  induction ts with
  | nil => intro i; rfl
  | cons t ts ih =>
    intro i
    by_cases hd : fpOf t ∈ existing
    · simp [loop000, hd, ih i]
    · cases hc : env.createOk i
      · simp [loop000, hd, hc, ih (i + 1)]
      · cases hp : addToProject000 env i <;>
          simp [loop000, hd, hc, hp, ih (i + 1)]

/-- The issues script 000 creates depend only on the create-call outcomes,
never on the project-resolution or attach outcomes: a record is never
retracted when linking fails. -/
theorem loop000_env_newIssues (envA envB : Env000) (existing : List (List Char))
    (h : envA.createOk = envB.createOk) :
    ∀ (ts : List Todo) (i : Nat),
      (loop000 envA existing ts i).newIssues = (loop000 envB existing ts i).newIssues := by
  intro ts
  induction ts with
  | nil => intro i; rfl
  | cons t ts ih =>
    intro i
    by_cases hd : fpOf t ∈ existing
    · simp [loop000, hd, ih i]
    · cases hc : envB.createOk i
      · have hcA : envA.createOk i = false := by rw [h]; exact hc
        simp [loop000, hd, hc, hcA, ih (i + 1)]
      · have hcA : envA.createOk i = true := by rw [h]; exact hc
        cases hpA : addToProject000 envA i <;> cases hpB : addToProject000 envB i <;>
          simp [loop000, hd, hc, hcA, hpA, hpB, ih (i + 1)]

/-- Script 001's loop ignores everything but the create outcomes. -/
theorem loop001_env (envA envB : Env001) (h : envA.createOk = envB.createOk) :
    ∀ (ts : List Todo) (j : Nat), loop001 envA ts j = loop001 envB ts j := by
  intro ts
  induction ts with
  | nil => intro j; rfl
  | cons t ts ih => intro j; simp [loop001, h, ih (j + 1)]

/-- Unfolding of a script-001 run with a successful fetch and a nonempty scan. -/
theorem run001_ok_eq (env : Env001) (remote : List Issue) (todos : List Todo)
    (h1 : todos ≠ []) :
    run001 env (.ok remote) todos =
      (if (reconcile001 todos (fetchFps001 remote)).isEmpty then
        ⟨0, ⟨[], 0, [], 0⟩, none⟩
      else
        ⟨0, loop001 env (reconcile001 todos (fetchFps001 remote)) 0,
          some (loop001 env (reconcile001 todos (fetchFps001 remote)) 0).createdCount⟩) := by
  cases todos with
  | nil => exact absurd rfl h1
  | cons t ts => rfl

/-- A successful fetch always leads script 001 to exit code 0. -/
theorem run001_exit_ok (env : Env001) (remote : List Issue) (todos : List Todo) :
    (run001 env (.ok remote) todos).exitCode = 0 := by
  cases htod : todos with
  | nil => rfl
  | cons t ts =>
    rw [run001_ok_eq env remote (t :: ts) (by simp)]
    by_cases h2 : (reconcile001 (t :: ts) (fetchFps001 remote)).isEmpty = true
    · rw [if_pos h2]
    · rw [if_neg h2]

/-- Script 001's loop observables are independent of the project-resolution
and attach outcomes. -/
theorem run001_env (envA envB : Env001) (remote : List Issue) (todos : List Todo)
    (h : envA.createOk = envB.createOk) :
    (run001 envA (.ok remote) todos).res = (run001 envB (.ok remote) todos).res := by
  cases htod : todos with
  | nil => rfl
  | cons t ts =>
    rw [run001_ok_eq envA remote (t :: ts) (by simp),
      run001_ok_eq envB remote (t :: ts) (by simp)]
    by_cases h2 : (reconcile001 (t :: ts) (fetchFps001 remote)).isEmpty = true
    · rw [if_pos h2, if_pos h2]
    · rw [if_neg h2, if_neg h2]
      simp [loop001_env envA envB h]

/-- Unfolding of a script-000 run with a successful fetch. -/
theorem run000_ok_eq (env : Env000) (remote : List Issue) (todos : List Todo) :
    run000 env (.ok remote) todos =
      ⟨0, loop000 env (fetchFps000 remote) todos 0,
        some (todos.length, (loop000 env (fetchFps000 remote) todos 0).createdCount,
          todos.length - (loop000 env (fetchFps000 remote) todos 0).createdCount)⟩ := rfl

/-- C7: when the `k`-th create call fails among the reconciler-selected
annotations, every selected annotation still gets exactly one create attempt;
each item's outcome depends only on its own create result; `createdCount`
tallies exactly the successful creates; and the run completes and prints its
summary.  The same isolation holds for script 000's loop, which visits every
scanned TODO and always reaches the summary. -/
theorem creation_failure_isolation (env : Env001) (env0 : Env000)
    (remote : List Issue) (todos : List Todo) (k : Nat)
    (hk : k < (reconcile001 todos (fetchFps001 remote)).length)
    (hfail : env.createOk k = false) :
    (run001 env (.ok remote) todos).res.outcomes.length =
      (reconcile001 todos (fetchFps001 remote)).length ∧
    (run001 env (.ok remote) todos).res.createCalls =
      (reconcile001 todos (fetchFps001 remote)).length ∧
    (∀ j, j < (reconcile001 todos (fetchFps001 remote)).length →
      (run001 env (.ok remote) todos).res.outcomes.getD j .failedItem =
        (if env.createOk j then ItemOutcome.createdOk else ItemOutcome.failedItem)) ∧
    (run001 env (.ok remote) todos).res.createdCount =
      (List.range (reconcile001 todos (fetchFps001 remote)).length).countP
        (fun j => env.createOk j) ∧
    (run001 env (.ok remote) todos).summary.isSome = true ∧
    (run000 env0 (.ok remote) todos).res.outcomes.length = todos.length ∧
    (run000 env0 (.ok remote) todos).summary.isSome = true := by
  set sel := reconcile001 todos (fetchFps001 remote) with hsel
  have hselne : sel ≠ [] := by
    intro h
    rw [h] at hk
    exact absurd hk (by simp)
  have htodne : todos ≠ [] := by
    intro h
    apply hselne
    rw [hsel, h]
    rfl
  have hrun : run001 env (.ok remote) todos =
      ⟨0, loop001 env sel 0, some (loop001 env sel 0).createdCount⟩ := by
    rw [run001_ok_eq env remote todos htodne]
    rw [if_neg (by simpa [List.isEmpty_iff] using hselne)]
  rw [hrun, run000_ok_eq]
  refine ⟨(loop001_len env sel 0).1, (loop001_len env sel 0).2, ?_, ?_, rfl,
    loop000_len env0 _ todos 0, rfl⟩
  · intro j hj
    simpa using loop001_getD env sel 0 j hj
  · simpa using loop001_count env sel 0

/-- Witness for C7: two selected annotations, the second create call fails. -/
theorem creation_failure_isolation_witness :
    (run001 envFailSecond001 (.ok []) [okTodo, dupTodo]).res.outcomes.length =
      (reconcile001 [okTodo, dupTodo] (fetchFps001 [])).length ∧
    (run001 envFailSecond001 (.ok []) [okTodo, dupTodo]).res.createCalls =
      (reconcile001 [okTodo, dupTodo] (fetchFps001 [])).length ∧
    (∀ j, j < (reconcile001 [okTodo, dupTodo] (fetchFps001 [])).length →
      (run001 envFailSecond001 (.ok []) [okTodo, dupTodo]).res.outcomes.getD j .failedItem =
        (if envFailSecond001.createOk j then ItemOutcome.createdOk
         else ItemOutcome.failedItem)) ∧
    (run001 envFailSecond001 (.ok []) [okTodo, dupTodo]).res.createdCount =
      (List.range (reconcile001 [okTodo, dupTodo] (fetchFps001 [])).length).countP
        (fun j => envFailSecond001.createOk j) ∧
    (run001 envFailSecond001 (.ok []) [okTodo, dupTodo]).summary.isSome = true ∧
    (run000 envAllOk000 (.ok []) [okTodo, dupTodo]).res.outcomes.length =
      [okTodo, dupTodo].length ∧
    (run000 envAllOk000 (.ok []) [okTodo, dupTodo]).summary.isSome = true :=
  creation_failure_isolation envFailSecond001 envAllOk000 [] [okTodo, dupTodo] 1
    (by decide) (by decide)

/-- C8 (amended): in script 001 linking is best-effort as claimed — the
created records, the success tally, and the exit code are all independent of
the project-resolution and attach outcomes.  In script 000 a created record is
likewise never retracted and the run still completes with its summary, but the
success tally is NOT independent of the linking outcome (see the
counterexample). -/
theorem linking_best_effort (envA envB : Env001) (env0A env0B : Env000)
    (remote : List Issue) (todos : List Todo)
    (h1 : envA.createOk = envB.createOk) (h0 : env0A.createOk = env0B.createOk) :
    (run001 envA (.ok remote) todos).res.newIssues =
      (run001 envB (.ok remote) todos).res.newIssues ∧
    (run001 envA (.ok remote) todos).res.createdCount =
      (run001 envB (.ok remote) todos).res.createdCount ∧
    (run001 envA (.ok remote) todos).exitCode = 0 ∧
    (run000 env0A (.ok remote) todos).res.newIssues =
      (run000 env0B (.ok remote) todos).res.newIssues ∧
    (run000 env0A (.ok remote) todos).exitCode = 0 ∧
    (run000 env0A (.ok remote) todos).summary.isSome = true := by
  have hres := run001_env envA envB remote todos h1
  refine ⟨by rw [hres], by rw [hres], run001_exit_ok envA remote todos, ?_, rfl, rfl⟩
  rw [run000_ok_eq, run000_ok_eq]
  exact loop000_env_newIssues env0A env0B _ h0 todos 0

/-- Witness for C8: a fully-succeeding environment against one whose
resolution and attach calls all fail. -/
theorem linking_best_effort_witness :
    (run001 envOk001 (.ok []) [okTodo]).res.newIssues =
      (run001 envLinkFail001 (.ok []) [okTodo]).res.newIssues ∧
    (run001 envOk001 (.ok []) [okTodo]).res.createdCount =
      (run001 envLinkFail001 (.ok []) [okTodo]).res.createdCount ∧
    (run001 envOk001 (.ok []) [okTodo]).exitCode = 0 ∧
    (run000 envAllOk000 (.ok []) [okTodo]).res.newIssues =
      (run000 envLinkFail000 (.ok []) [okTodo]).res.newIssues ∧
    (run000 envAllOk000 (.ok []) [okTodo]).exitCode = 0 ∧
    (run000 envAllOk000 (.ok []) [okTodo]).summary.isSome = true :=
  linking_best_effort envOk001 envLinkFail001 envAllOk000 envLinkFail000 [] [okTodo]
    rfl rfl

/-- Counterexample for C8 as stated: in script 000, when the container cannot
be resolved under either ownership kind, `addIssueToProject` throws; the
per-item catch keeps the run alive and the created record is not retracted,
but `createdCount++` is skipped — the annotation is counted as a failure, not
a success, and the summary reports it as skipped. -/
theorem link_failure_counts_failed_cx :
    (run000 envLinkFail000 (.ok []) [okTodo]).res.newIssues = [mkIssue000 okTodo] ∧
    (run000 envLinkFail000 (.ok []) [okTodo]).res.createdCount = 0 ∧
    (run000 envLinkFail000 (.ok []) [okTodo]).res.outcomes = [.failedItem] ∧
    (run000 envLinkFail000 (.ok []) [okTodo]).exitCode = 0 ∧
    (run000 envLinkFail000 (.ok []) [okTodo]).summary = some (1, 0, 1) := by decide

/-- The head surviving `dropWhile` fails the predicate. -/
theorem head?_dropWhile_false {p : Char → Bool} {l : List Char} {c : Char}
    (h : (l.dropWhile p).head? = some c) : p c = false := by
  have hm := List.head?_dropWhile_not p l
  rw [h] at hm
  exact hm

/-- `dropWhile` is the identity when the head already fails the predicate. -/
theorem dropWhile_eq_self_of_head? {p : Char → Bool} {l : List Char}
    (h : ∀ c, l.head? = some c → p c = false) : l.dropWhile p = l := by
  cases l with
  | nil => rfl
  | cons c rest => simp [List.dropWhile_cons, h c rfl]

/-- `dropWhile` keeps the last element when its result is nonempty. -/
theorem getLast?_dropWhile {p : Char → Bool} : ∀ (l : List Char),
    l.dropWhile p ≠ [] → (l.dropWhile p).getLast? = l.getLast? := by
  intro l
  induction l with
  | nil => intro h; exact absurd rfl h
  | cons c rest ih =>
    intro h
    by_cases hc : p c = true
    · rw [List.dropWhile_cons, if_pos hc] at h ⊢
      rw [ih h]
      have hrest : rest ≠ [] := by
        intro e
        rw [e] at h
        exact h rfl
      cases rest with
      | nil => exact absurd rfl hrest
      | cons d rest' => exact (List.getLast?_cons_cons).symm
    · rw [List.dropWhile_cons, if_neg hc]

/-- JavaScript `trim` is idempotent. -/
theorem trimChars_idem (l : List Char) : trimChars (trimChars l) = trimChars l := by
  set p := isJsSpace with hp
  set u := l.dropWhile p with hu
  set v := (u.reverse).dropWhile p with hv
  have hd1 : ∀ c, (v.reverse).head? = some c → p c = false := by
    intro c hc
    rw [List.head?_reverse] at hc
    by_cases hvnil : v = []
    · rw [hvnil] at hc; cases hc
    · rw [hv] at hc hvnil
      rw [getLast?_dropWhile u.reverse hvnil] at hc
      rw [List.getLast?_reverse] at hc
      rw [hu] at hc
      exact head?_dropWhile_false hc
  have h2 : (v.reverse).dropWhile p = v.reverse := dropWhile_eq_self_of_head? hd1
  show ((((v.reverse).dropWhile p).reverse).dropWhile p).reverse = v.reverse
  rw [h2, List.reverse_reverse]
  have h3 : v.dropWhile p = v := by
    apply dropWhile_eq_self_of_head?
    intro c hc
    rw [hv] at hc
    exact head?_dropWhile_false hc
  rw [h3]

/-- Decomposition of a successful lazy capture: the input splits into a
nonempty `.`-matchable capture followed by a position where the lookahead
succeeds. -/
theorem lazyCap_some : ∀ {r cap : List Char}, lazyCap r = some cap →
    ∃ rest, r = cap ++ rest ∧ cap ≠ [] ∧ cap.all isDot = true ∧
      lookaheadOk rest = true := by
  intro r
  induction r with
  | nil => intro cap h; cases h
  | cons c rest ih =>
    intro cap h
    by_cases hd : isDot c = true
    · by_cases hl : lookaheadOk rest = true
      · rw [lazyCap, if_pos hd, if_pos hl] at h
        obtain rfl := Option.some.inj h
        exact ⟨rest, rfl, by simp, by simp [hd], hl⟩
      · rw [lazyCap, if_pos hd, if_neg hl] at h
        obtain ⟨cs, hcs, rfl⟩ := Option.map_eq_some'.mp h
        obtain ⟨rest', hre, hne, hall, hla⟩ := ih hcs
        exact ⟨rest', by rw [hre]; rfl, by simp, by simp [hd, hall], hla⟩
    · rw [lazyCap, if_neg hd] at h
      cases h

/-- A successful whitespace backtrack came from some shrink of the run. -/
theorem tryWs_some : ∀ (j : Nat) {r cap : List Char}, tryWs r j = some cap →
    ∃ j', j' ≤ j ∧ lazyCap (r.drop j') = some cap := by
  intro j
  induction j with
  | zero =>
    intro r cap h
    exact ⟨0, Nat.le_refl 0, by simpa [tryWs] using h⟩
  | succ j ih =>
    intro r cap h
    rw [tryWs] at h
    cases hl : lazyCap (r.drop (j + 1)) with
    | some c2 =>
      rw [hl] at h
      obtain rfl := Option.some.inj h
      exact ⟨j + 1, Nat.le_refl _, hl⟩
    | none =>
      rw [hl] at h
      obtain ⟨j', hle, hj⟩ := ih h
      exact ⟨j', Nat.le_succ_of_le hle, hj⟩

/-- A take within the leading satisfying run satisfies the predicate. -/
theorem take_all_of_le_takeWhile {p : Char → Bool} : ∀ {r : List Char} {j : Nat},
    j ≤ (r.takeWhile p).length → (r.take j).all p = true := by
  intro r
  induction r with
  | nil => intro j h; simp
  | cons c rest ih =>
    intro j h
    cases j with
    | zero => simp
    | succ j =>
      by_cases hp : p c = true
      · rw [List.takeWhile_cons, if_pos hp] at h
        simp only [List.length_cons] at h
        simp [List.take_succ_cons, List.all_cons, hp,
          ih (Nat.le_of_succ_le_succ h)]
      · rw [List.takeWhile_cons, if_neg hp] at h
        exact absurd h (by simp)

/-- Decomposition of a successful `\s*(.+?)` match after the TODO tag. -/
theorem afterTodo_some {r cap : List Char} (h : afterTodo r = some cap) :
    ∃ w2 r3, r = w2 ++ r3 ∧ w2.all isJsSpace = true ∧ lazyCap r3 = some cap := by
  rw [afterTodo] at h
  obtain ⟨j', hle, hj⟩ := tryWs_some _ h
  exact ⟨r.take j', r.drop j', (List.take_append_drop j' r).symm,
    take_all_of_le_takeWhile hle, hj⟩

/-- A successful tag strip exposes a case-insensitive `TODO:`. -/
theorem stripTodoTag_some : ∀ {r r2 : List Char}, stripTodoTag r = some r2 →
    ∃ tag, r = tag ++ r2 ∧ isTodoTagL tag = true := by
  intro r r2 h
  unfold stripTodoTag at h
  split at h
  next a b c d e rest =>
    split at h
    next ht =>
      obtain rfl := Option.some.inj h
      exact ⟨[a, b, c, d, e], rfl, by simpa [isTodoTagL] using ht⟩
    next => cases h
  next => cases h

/-- Decomposition of a successful `\s*TODO:\s*(.+?)` match after a comment
delimiter. -/
theorem afterDelim_some {r cap : List Char} (h : afterDelim r = some cap) :
    ∃ w1 tag r2, r = w1 ++ (tag ++ r2) ∧ w1.all isJsSpace = true ∧
      isTodoTagL tag = true ∧ afterTodo r2 = some cap := by
  unfold afterDelim at h
  cases hs : stripTodoTag (r.dropWhile isJsSpace) with
  | none => rw [hs] at h; cases h
  | some r2 =>
    rw [hs] at h
    obtain ⟨tag, htag, hT⟩ := stripTodoTag_some hs
    refine ⟨r.takeWhile isJsSpace, tag, r2, ?_, List.all_takeWhile, hT, h⟩
    conv_lhs => rw [← List.takeWhile_append_dropWhile isJsSpace r]
    rw [htag]

/-- A successful delimiter attempt certifies its prefix. -/
theorem tryDelim_some {d l cap : List Char} (h : tryDelim d l = some cap) :
    d <+: l ∧ afterDelim (l.drop d.length) = some cap := by
  unfold tryDelim at h
  by_cases hp : d.isPrefixOf l = true
  · exact ⟨List.isPrefixOf_iff_prefix.mp hp, by rwa [if_pos hp] at h⟩
  · rw [if_neg hp] at h
    cases h

/-- Decomposition of a successful anchored match: one of the four delimiter
alternatives matched. -/
theorem matchTodoAt_some {l cap : List Char} (h : matchTodoAt l = some cap) :
    ∃ d, (d = s2l "//" ∨ d = s2l "#" ∨ d = s2l "<!--" ∨ d = s2l "/*") ∧
      d <+: l ∧ afterDelim (l.drop d.length) = some cap := by
  unfold matchTodoAt at h
  cases h1 : tryDelim (s2l "//") l with
  | some c =>
    simp only [h1] at h
    obtain rfl := Option.some.inj h
    exact ⟨s2l "//", Or.inl rfl, (tryDelim_some h1).1, (tryDelim_some h1).2⟩
  | none =>
    simp only [h1] at h
    cases h2 : tryDelim (s2l "#") l with
    | some c =>
      simp only [h2] at h
      obtain rfl := Option.some.inj h
      exact ⟨s2l "#", Or.inr (Or.inl rfl), (tryDelim_some h2).1, (tryDelim_some h2).2⟩
    | none =>
      simp only [h2] at h
      cases h3 : tryDelim (s2l "<!--") l with
      | some c =>
        simp only [h3] at h
        obtain rfl := Option.some.inj h
        exact ⟨s2l "<!--", Or.inr (Or.inr (Or.inl rfl)),
          (tryDelim_some h3).1, (tryDelim_some h3).2⟩
      | none =>
        simp only [h3] at h
        exact ⟨s2l "/*", Or.inr (Or.inr (Or.inr rfl)),
          (tryDelim_some h).1, (tryDelim_some h).2⟩

/-- Decomposition of a successful scan: the match sits at some position. -/
theorem matchTodo000_some : ∀ {l cap : List Char}, matchTodo000 l = some cap →
    ∃ pre suf, l = pre ++ suf ∧ matchTodoAt suf = some cap := by
  intro l
  induction l with
  | nil => intro cap h; cases h
  | cons c rest ih =>
    intro cap h
    rw [matchTodo000] at h
    cases hm : matchTodoAt (c :: rest) with
    | some c2 =>
      rw [hm] at h
      obtain rfl := Option.some.inj h
      exact ⟨[], c :: rest, rfl, hm⟩
    | none =>
      rw [hm] at h
      obtain ⟨pre, suf, hpre, hsuf⟩ := ih h
      exact ⟨c :: pre, suf, by rw [List.cons_append, hpre], hsuf⟩

/-- The lazy capture succeeds whenever some valid capture/lookahead split
exists. -/
theorem lazyCap_complete : ∀ (cap rest : List Char), cap ≠ [] →
    cap.all isDot = true → lookaheadOk rest = true →
    (lazyCap (cap ++ rest)).isSome = true := by
  intro cap
  induction cap with
  | nil => intro rest h; exact absurd rfl h
  | cons c cs ih =>
    intro rest _ hall hla
    simp only [List.all_cons, Bool.and_eq_true] at hall
    by_cases hcs : cs = []
    · subst hcs
      simp [lazyCap, hall.1, hla]
    · have hrec := ih rest hcs hall.2 hla
      rw [List.cons_append, lazyCap, if_pos hall.1]
      by_cases hlo : lookaheadOk (cs ++ rest) = true
      · simp [hlo]
      · rw [if_neg hlo]
        cases hl : lazyCap (cs ++ rest) with
        | some cs2 => rfl
        | none => rw [hl] at hrec; cases hrec

/-- The whitespace backtracking succeeds whenever some shrink of the run lets
the capture succeed. -/
theorem tryWs_complete : ∀ (j : Nat) (r : List Char) (j' : Nat), j' ≤ j →
    (lazyCap (r.drop j')).isSome = true → (tryWs r j).isSome = true := by
  intro j
  induction j with
  | zero =>
    intro r j' hle h
    have hz : j' = 0 := Nat.le_zero.mp hle
    subst hz
    simpa [tryWs] using h
  | succ j ih =>
    intro r j' hle h
    rw [tryWs]
    cases hl : lazyCap (r.drop (j + 1)) with
    | some c => simp
    | none =>
      have hne : j' ≠ j + 1 := by
        intro e
        rw [e, hl] at h
        cases h
      exact ih r j' (Nat.lt_succ_iff.mp (Nat.lt_of_le_of_ne hle hne)) h

/-- The whitespace run before the capture is at least as long as any
all-whitespace prefix. -/
theorem le_takeWhile_length_append {p : Char → Bool} {w X : List Char}
    (h : w.all p = true) : w.length ≤ ((w ++ X).takeWhile p).length := by
  rw [takeWhile_append_of_all h]
  simp

/-- `\s*(.+?)` succeeds after the TODO tag on any whitespace-capture-lookahead
split. -/
theorem afterTodo_complete {w2 cap rest : List Char} (hw : w2.all isJsSpace = true)
    (hne : cap ≠ []) (hall : cap.all isDot = true) (hla : lookaheadOk rest = true) :
    (afterTodo (w2 ++ (cap ++ rest))).isSome = true := by
  rw [afterTodo]
  apply tryWs_complete _ _ w2.length (le_takeWhile_length_append hw)
  rw [List.drop_left]
  exact lazyCap_complete cap rest hne hall hla

/-- `dropWhile` runs through a block that satisfies the predicate. -/
theorem dropWhile_append_of_all {p : Char → Bool} {l₁ l₂ : List Char}
    (h : l₁.all p = true) :
    (l₁ ++ l₂).dropWhile p = l₂.dropWhile p := by
  induction l₁ with
  | nil => simp
  | cons c l ih =>
    simp only [List.all_cons, Bool.and_eq_true] at h
    simp [List.dropWhile_cons, h.1, ih h.2]

/-- Shape of a case-insensitive `TODO:` tag; its head is `T` or `t`, hence not
whitespace. -/
theorem isTodoTagL_shape : ∀ {tag : List Char}, isTodoTagL tag = true →
    ∃ a b c d e, tag = [a, b, c, d, e] ∧ tagEq a b c d e = true ∧
      isJsSpace a = false := by
  intro tag h
  unfold isTodoTagL at h
  split at h
  next a b c d e =>
    refine ⟨a, b, c, d, e, rfl, h, ?_⟩
    have ha : (a == 'T' || a == 't') = true := by
      simp only [tagEq, Bool.and_eq_true] at h
      exact h.1.1.1.1
    have ha' : a = 'T' ∨ a = 't' := by simpa using ha
    rcases ha' with rfl | rfl
    · decide
    · decide
  next => cases h

/-- `\s*TODO:\s*(.+?)` succeeds after a delimiter on any declarative split. -/
theorem afterDelim_complete {w1 tag r2 : List Char} (hw : w1.all isJsSpace = true)
    (ht : isTodoTagL tag = true) (h2 : (afterTodo r2).isSome = true) :
    (afterDelim (w1 ++ (tag ++ r2))).isSome = true := by
  obtain ⟨a, b, c, d, e, rfl, htag, hsp⟩ := isTodoTagL_shape ht
  rw [afterDelim, dropWhile_append_of_all hw]
  rw [show (([a, b, c, d, e] ++ r2 : List Char)) = a :: ([b, c, d, e] ++ r2) from rfl]
  rw [List.dropWhile_cons, if_neg (by rw [hsp]; exact Bool.false_ne_true)]
  rw [show (a :: ([b, c, d, e] ++ r2) : List Char) = a :: b :: c :: d :: e :: r2 from rfl]
  rw [stripTodoTag, if_pos htag]
  exact h2

/-- A delimiter alternative applied to a string it heads reduces to the rest
of the pattern. -/
theorem tryDelim_self (d r : List Char) : tryDelim d (d ++ r) = afterDelim r := by
  unfold tryDelim
  rw [if_pos (List.isPrefixOf_iff_prefix.mpr (List.prefix_append _ _))]
  rw [List.drop_left]

/-- A delimiter alternative fails when it is not a prefix. -/
theorem tryDelim_none {d l : List Char} (h : d.isPrefixOf l = false) :
    tryDelim d l = none := by
  unfold tryDelim
  rw [if_neg (by rw [h]; exact Bool.false_ne_true)]

/-- The anchored match succeeds on a string headed by any of the four
delimiters when the rest of the pattern succeeds. -/
theorem matchTodoAt_complete {d r : List Char}
    (hd : d = s2l "//" ∨ d = s2l "#" ∨ d = s2l "<!--" ∨ d = s2l "/*")
    (h : (afterDelim r).isSome = true) :
    (matchTodoAt (d ++ r)).isSome = true := by
  obtain ⟨c, hc⟩ := Option.isSome_iff_exists.mp h
  rcases hd with rfl | rfl | rfl | rfl
  · rw [matchTodoAt, tryDelim_self, hc]
    rfl
  · have e1 : tryDelim (s2l "//") (s2l "#" ++ r) = none := tryDelim_none rfl
    rw [matchTodoAt, e1, tryDelim_self, hc]
    rfl
  · have e1 : tryDelim (s2l "//") (s2l "<!--" ++ r) = none := tryDelim_none rfl
    have e2 : tryDelim (s2l "#") (s2l "<!--" ++ r) = none := tryDelim_none rfl
    rw [matchTodoAt, e1, e2, tryDelim_self, hc]
    rfl
  · have e1 : tryDelim (s2l "//") (s2l "/*" ++ r) = none := tryDelim_none rfl
    have e2 : tryDelim (s2l "#") (s2l "/*" ++ r) = none := tryDelim_none rfl
    have e3 : tryDelim (s2l "<!--") (s2l "/*" ++ r) = none := tryDelim_none rfl
    rw [matchTodoAt, e1, e2, e3, tryDelim_self, hc]
    rfl

/-- The scan succeeds when the anchored match succeeds at any position. -/
theorem matchTodo000_complete : ∀ (pre suf : List Char),
    (matchTodoAt suf).isSome = true → (matchTodo000 (pre ++ suf)).isSome = true := by
  intro pre
  induction pre with
  | nil =>
    intro suf h
    cases suf with
    | nil => exact absurd h (by decide)
    | cons c rest =>
      obtain ⟨cap, hcap⟩ := Option.isSome_iff_exists.mp h
      rw [List.nil_append, matchTodo000, hcap]
      rfl
  | cons p pre ih =>
    intro suf h
    rw [List.cons_append, matchTodo000]
    cases hm : matchTodoAt (p :: (pre ++ suf)) with
    | some c => simp
    | none => exact ih suf h

/-- Forward direction: a successful scan yields the declarative decomposition. -/
theorem matchTodo000_isSome_spec {l : List Char}
    (h : (matchTodo000 l).isSome = true) : specTodoLine l := by
  obtain ⟨cap, hcap⟩ := Option.isSome_iff_exists.mp h
  obtain ⟨pre, suf, rfl, hat⟩ := matchTodo000_some hcap
  obtain ⟨d, hd, hdpre, haft⟩ := matchTodoAt_some hat
  have hsuf : suf = d ++ suf.drop d.length := (List.prefix_iff_eq_append.mp hdpre).symm
  obtain ⟨w1, tag, r2, hdec, hw1, htag, hat2⟩ := afterDelim_some haft
  obtain ⟨w2, r3, hdec2, hw2, hlz⟩ := afterTodo_some hat2
  obtain ⟨rest, hdec3, hne, hall, hla⟩ := lazyCap_some hlz
  refine ⟨pre, d, w1, tag, w2, cap, rest, ?_, hd, hw1, htag, hw2, hne, hall, ?_⟩
  · conv_lhs => rw [hsuf, hdec, hdec2, hdec3]
    simp [List.append_assoc]
  · have := hla
    simp only [lookaheadOk, Bool.or_eq_true, List.isEmpty_iff] at this
    tauto

/-- C6 (amended, script 000's scanner): a line yields an extracted annotation
iff it admits the spec's decomposition — a comment delimiter, then
case-insensitive `TODO:`, then a nonempty `.`-matchable capture running up to
`-->`, `*/`, or end of line — and every extracted text is trim-stable (the
stored text is trimmed).  `line.match` without the `g` flag returns at most
one match, so at most one annotation arises per line. -/
theorem todo_line_match_iff_spec (l : List Char) :
    ((extractTodoText000 l).isSome = true ↔ specTodoLine l) ∧
    (∀ t, extractTodoText000 l = some t → trimChars t = t) := by
  constructor
  · have hiso : (extractTodoText000 l).isSome = (matchTodo000 l).isSome := by
      rw [extractTodoText000]
      cases matchTodo000 l <;> rfl
    rw [hiso]
    constructor
    · exact matchTodo000_isSome_spec
    · rintro ⟨pre, d, w1, tag, w2, cap, rest, rfl, hd, hw1, htag, hw2, hne, hall, hrest⟩
      have hla : lookaheadOk rest = true := by
        rcases hrest with rfl | hp | hp
        · simp [lookaheadOk]
        · simp [lookaheadOk, hp]
        · simp [lookaheadOk, hp]
      have h1 : (afterTodo (w2 ++ (cap ++ rest))).isSome = true :=
        afterTodo_complete hw2 hne hall hla
      have h2 : (afterDelim (w1 ++ (tag ++ (w2 ++ (cap ++ rest))))).isSome = true :=
        afterDelim_complete hw1 htag h1
      have h3 : (matchTodoAt (d ++ (w1 ++ (tag ++ (w2 ++ (cap ++ rest)))))).isSome = true :=
        matchTodoAt_complete hd h2
      have h4 := matchTodo000_complete pre _ h3
      simpa [List.append_assoc] using h4
  · intro t ht
    rw [extractTodoText000] at ht
    obtain ⟨cap, hcap, rfl⟩ := Option.map_eq_some'.mp ht
    exact trimChars_idem cap

/-- Witness for C6: the extracted, trimmed text of a concrete line is
trim-stable. -/
theorem todo_line_match_iff_spec_witness : trimChars (s2l "x") = s2l "x" :=
  (todo_line_match_iff_spec (s2l "// TODO: x")).2 (s2l "x") (by decide)

/-- Any line matching the spec's pattern contains a delimiter character. -/
theorem specTodoLine_has_delim_char {l : List Char} (h : specTodoLine l) :
    '/' ∈ l ∨ '#' ∈ l ∨ '<' ∈ l := by
  obtain ⟨pre, d, w1, tag, w2, cap, rest, rfl, hd, -⟩ := h
  rcases hd with rfl | rfl | rfl | rfl
  · have hm : ('/' : Char) ∈ s2l "//" := by decide
    left; simp [List.mem_append, hm]
  · have hm : ('#' : Char) ∈ s2l "#" := by decide
    right; left; simp [List.mem_append, hm]
  · have hm : ('<' : Char) ∈ s2l "<!--" := by decide
    right; right; simp [List.mem_append, hm]
  · have hm : ('/' : Char) ∈ s2l "/*" := by decide
    left; simp [List.mem_append, hm]

/-- Counterexample for C6 as stated: script 001's scanner extracts an
annotation from a line with no comment delimiter at all (its regex is
`/TODO:\s*(.+)/`, case-sensitive and delimiter-free), while the spec's
pattern rejects that line. -/
theorem scanner001_matches_without_delim_cx :
    extractTodoText001 (s2l "TODO: x") = some (s2l "x") ∧
    ¬ specTodoLine (s2l "TODO: x") := by
  refine ⟨by decide, fun h => ?_⟩
  rcases specTodoLine_has_delim_char h with h1 | h1 | h1 <;> revert h1 <;> decide
